import Mathlib

/-!
Verification development for the USERS browser-automation extension.

The definitions below are a shallow embedding of the orchestration core:

* `runStepBody`, `handleRecovery`, `execStep`, `execRun` embed the execute
  loop of `src/extension/background.js` (`runExecuteLoop`,
  `handleRecovery`, `completeExecution`).  One `EnvInput.iter` transition
  corresponds to one pass of the `while` body (or one 300 ms poll tick
  while awaiting recovery); one `EnvInput.recover` transition corresponds
  to one `EXECUTE_RECOVER` message handled by `handleRecovery`.
* `executeAction`, `performScroll`, `getClickContext`, `teachStep` embed
  the content script `src/extension/content.js`.

Machine-visible side effects (popup notifications, backend calls, page
actions, sleeps) are recorded as `ExecEvent` / `TeachOut` trace elements.
-/

namespace Users

/-- An ActionCommand as returned by the backend (`result.action`).
`type` is the raw string tag; coordinates are normalized fractions. -/
structure ActionCmd where
  type : String
  x : Option ℚ := none
  y : Option ℚ := none
  value : Option String := none
  scroll_direction : Option String := none
deriving DecidableEq, Repr

/-- Response of `POST /execute/step` as used by `runExecuteLoop`. -/
structure StepResponse where
  intent : Option String := none
  recovery_needed : Bool := false
  recovery_question : Option String := none
  action : Option ActionCmd := none
deriving DecidableEq, Repr

/-- The `executeState` object of `background.js`
(`{ executionId, workflowId, totalSteps, stepIndex, running }`, plus the
`awaitingRecovery` flag set during recovery). -/
structure ExecState where
  executionId : String
  workflowId : String
  totalSteps : Nat
  stepIndex : Nat
  running : Bool
  awaitingRecovery : Bool
deriving DecidableEq, Repr

/-- Observable effects of the execute loop and of `handleRecovery`. -/
inductive ExecEvent where
  | statusCapture (i : Nat)
  | captureFailed
  | sleepMs (ms : Nat)
  | stepApiCall (executionId : String) (i : Nat)
  | stepApiFailed
  | stepUpdate (i : Nat) (recovering : Bool)
  | recoveryRequested (question : Option String) (i : Nat)
  | actionDispatched (a : ActionCmd)
  | stepDone (i : Nat)
  | recoverApiCall (executionId : String) (i : Nat) (resolution : String)
  | recoverApiFailed
  | completeApiCall (executionId : String)
  | completed
deriving DecidableEq, Repr

/-- Environment stimuli driving the background script:
one pass of the execute-loop body (with the outcomes of the screenshot
capture and the `/execute/step` call supplied by the environment), or one
`EXECUTE_RECOVER` message. -/
inductive EnvInput where
  | iter (captureOk : Bool) (api : Option StepResponse)
  | recover (executionId : String) (i : Nat) (resolution : String)
      (captureOk : Bool) (recoverOk : Bool)
deriving DecidableEq, Repr

/-- `executeState` as allocated by the `EXECUTE_START` handler:
`{ executionId, workflowId, totalSteps, stepIndex: 0, running: true }`
(`awaitingRecovery` is unset, i.e. falsy). -/
def initExecState (executionId workflowId : String) (totalSteps : Nat) : ExecState :=
  { executionId := executionId, workflowId := workflowId, totalSteps := totalSteps,
    stepIndex := 0, running := true, awaitingRecovery := false }

/-- One pass of the body of `runExecuteLoop` below the completion check,
for a state that is running and not awaiting recovery:
capture → `/execute/step` → recovery pause or dispatch/settle/advance. -/
def runStepBody (st : ExecState) (captureOk : Bool) (api : Option StepResponse) :
    Option ExecState × List ExecEvent :=
  match captureOk with
  | false =>
      (some st,
       [ExecEvent.statusCapture st.stepIndex, ExecEvent.captureFailed,
        ExecEvent.sleepMs 2000])
  | true =>
    match api with
    | none =>
        (some st,
         [ExecEvent.statusCapture st.stepIndex,
          ExecEvent.stepApiCall st.executionId st.stepIndex,
          ExecEvent.stepApiFailed, ExecEvent.sleepMs 2000])
    | some r =>
      match r.recovery_needed with
      | true =>
          (some { st with awaitingRecovery := true },
           [ExecEvent.statusCapture st.stepIndex,
            ExecEvent.stepApiCall st.executionId st.stepIndex,
            ExecEvent.stepUpdate st.stepIndex true,
            ExecEvent.recoveryRequested r.recovery_question st.stepIndex])
      | false =>
          (some { st with stepIndex := st.stepIndex + 1 },
           [ExecEvent.statusCapture st.stepIndex,
            ExecEvent.stepApiCall st.executionId st.stepIndex,
            ExecEvent.stepUpdate st.stepIndex false] ++
           (match r.action with
            | some a => [ExecEvent.actionDispatched a]
            | none => []) ++
           [ExecEvent.sleepMs 1200, ExecEvent.stepDone st.stepIndex])

/-- `handleRecovery(executionId, stepIndex, resolution)` of `background.js`:
capture a screenshot (failure only warned), call `/execute/recover`
(failure only logged), then clear `awaitingRecovery` if `executeState`
exists.  No validation of the submitted index or of `awaitingRecovery`
is performed. -/
def handleRecovery (s : Option ExecState) (executionId : String) (i : Nat)
    (resolution : String) (captureOk recoverOk : Bool) :
    Option ExecState × List ExecEvent :=
  let evs := [ExecEvent.recoverApiCall executionId i resolution] ++
    (match recoverOk with
     | true => []
     | false => [ExecEvent.recoverApiFailed])
  match s with
  | none => (none, evs)
  | some st => (some { st with awaitingRecovery := false }, evs)

/-- One transition of the background script.  An `iter` input is one
observation point of `runExecuteLoop`: loop exit when not running, a
300 ms poll tick while awaiting recovery, completion when
`stepIndex >= totalSteps`, else one body pass. -/
def execStep (s : Option ExecState) (inp : EnvInput) :
    Option ExecState × List ExecEvent :=
  match inp with
  | EnvInput.recover eid i res capOk recOk => handleRecovery s eid i res capOk recOk
  | EnvInput.iter capOk api =>
    match s with
    | none => (none, [])
    | some st =>
      match st.running, st.awaitingRecovery with
      | false, _ => (some st, [])
      | true, true => (some st, [ExecEvent.sleepMs 300])
      | true, false =>
        if st.totalSteps ≤ st.stepIndex then
          (none, [ExecEvent.completeApiCall st.executionId, ExecEvent.completed])
        else runStepBody st capOk api

/-- Run the background script over a list of environment inputs,
collecting the event trace. -/
def execRun (s : Option ExecState) : List EnvInput → Option ExecState × List ExecEvent
  | [] => (s, [])
  | inp :: rest =>
      let step := execStep s inp
      let tail := execRun step.1 rest
      (tail.1, step.2 ++ tail.2)

/-- Final state of a run. -/
def execRunState (s : Option ExecState) (l : List EnvInput) : Option ExecState :=
  (execRun s l).1

/-- Recognizer for action-dispatch events. -/
def isDispatchEvent : ExecEvent → Bool
  | ExecEvent.actionDispatched _ => true
  | _ => false

/-- Inputs that keep the session inside a recovery phase: resolution
submissions, poll/retry iterations, and iterations whose inference result
again signals `recovery_needed`. -/
def isRecoveryPhaseInput : EnvInput → Bool
  | EnvInput.recover _ _ _ _ _ => true
  | EnvInput.iter false _ => true
  | EnvInput.iter true none => true
  | EnvInput.iter true (some r) => r.recovery_needed

/-! ### Content script: action dispatch (`src/extension/content.js`) -/

/-- JavaScript whitespace characters recognized by `String.prototype.trim`
(restricted to the ASCII ones). -/
def isJsWhitespace (c : Char) : Bool :=
  c = ' ' ∨ c = '\t' ∨ c = '\n' ∨ c = '\r' ∨ c = '\x0b' ∨ c = '\x0c'

/-- `s.trim()`. -/
def jsTrim (s : String) : String :=
  String.mk (((s.toList.dropWhile isJsWhitespace).reverse.dropWhile isJsWhitespace).reverse)

/-- `s.slice(0, n)`. -/
def sliceTo (n : Nat) (s : String) : String :=
  String.mk (s.toList.take n)

/-- Value of the longest leading run of decimal digits, if nonempty. -/
def leadingDigits (cs : List Char) : Option Nat :=
  match cs.takeWhile Char.isDigit with
  | [] => none
  | ds => some (ds.foldl (fun a c => a * 10 + (c.toNat - 48)) 0)

/-- `parseInt(s, 10)`: skip leading whitespace, optional sign, longest
digit run; `none` models `NaN` (no digits). -/
def jsParseInt (s : String) : Option Int :=
  match s.toList.dropWhile isJsWhitespace with
  | '-' :: rest => (leadingDigits rest).map (fun n => -(n : Int))
  | '+' :: rest => (leadingDigits rest).map (fun n => (n : Int))
  | cs => (leadingDigits cs).map (fun n => (n : Int))

/-- A `window.scrollBy` call: signed vertical (`top:`) or horizontal
(`left:`) pixel offset. -/
inductive ScrollEffect where
  | vertical (amount : Int)
  | horizontal (amount : Int)
deriving DecidableEq, Repr

/-- `performScroll(direction, value)` of `content.js`:
`const amount = parseInt(value, 10) || 300;` (so `NaN` **and** `0` both
fall back to 300), then a switch on the direction with `down` as the
default branch. -/
def performScroll (direction : Option String) (value : Option String) : ScrollEffect :=
  let amount : Int :=
    match value.bind jsParseInt with
    | none => 300
    | some n => if n = 0 then 300 else n
  if direction = some "down" then ScrollEffect.vertical amount
  else if direction = some "up" then ScrollEffect.vertical (-amount)
  else if direction = some "right" then ScrollEffect.horizontal amount
  else if direction = some "left" then ScrollEffect.horizontal (-amount)
  else ScrollEffect.vertical amount

/-- Modelled from the spec sentence of claim C7 (for comparison with
`performScroll`): scroll by the literal numeric amount of `value`, with
300 only when the value is missing or non-numeric. -/
def performScrollClaimed (direction : Option String) (value : Option String) : ScrollEffect :=
  let amount : Int :=
    match value.bind jsParseInt with
    | none => 300
    | some n => n
  if direction = some "down" then ScrollEffect.vertical amount
  else if direction = some "up" then ScrollEffect.vertical (-amount)
  else if direction = some "right" then ScrollEffect.horizontal amount
  else if direction = some "left" then ScrollEffect.horizontal (-amount)
  else ScrollEffect.vertical amount

/-- Abstract page effect selected by `executeAction`'s switch on
`action.type`. -/
inductive ActionEffect where
  | clickAt (x y : Option ℚ)
  | typeText (x y : Option ℚ) (text : String)
  | navigateTo (url : Option String)
  | scrolled (s : ScrollEffect)
  | unknownLogged (kind : String)
deriving DecidableEq, Repr

/-- `executeAction(action)` of `content.js`: the switch on `action.type`
with cases `click`, `type`, `navigate`, `scroll`; the default branch only
logs (`console.warn`) and performs no page action. -/
def executeAction (a : ActionCmd) : ActionEffect :=
  if a.type = "click" then ActionEffect.clickAt a.x a.y
  else if a.type = "type" then ActionEffect.typeText a.x a.y (a.value.getD "")
  else if a.type = "navigate" then ActionEffect.navigateTo a.value
  else if a.type = "scroll" then ActionEffect.scrolled (performScroll a.scroll_direction a.value)
  else ActionEffect.unknownLogged a.type

/-! ### Content script: click context (`getClickContext`) -/

/-- The DOM facts `getClickContext` reads from the clicked element.
`getAttribute` results are `Option` (`none` = attribute absent);
`parentText` is the parent element's `textContent` (`none` = no parent). -/
structure DomElement where
  textContent : String
  innerText : String
  ariaLabel : Option String
  placeholder : Option String
  title : Option String
  tagName : String
  typeAttr : Option String
  parentText : Option String
deriving DecidableEq, Repr

/-- `(el.textContent || el.innerText || '').trim().slice(0, 80)`. -/
def selfTextOf (el : DomElement) : String :=
  sliceTo 80 (jsTrim (if el.textContent = "" then el.innerText else el.textContent))

/-- `s.toLowerCase()`, character by character. -/
def jsToLower (s : String) : String :=
  String.mk (s.data.map Char.toLower)

/-- The tag part: `type ? tag[type=...] : tag` with
`tag = el.tagName.toLowerCase()` (an empty `type` attribute is falsy). -/
def tagFieldOf (el : DomElement) : String :=
  let tag := jsToLower el.tagName
  match el.typeAttr with
  | some t => if t = "" then tag else tag ++ "[type=" ++ t ++ "]"
  | none => tag

/-- `if (t) parts.push(t)`: the element contributed when truthy. -/
def pushNonempty (t : String) : List String :=
  if t = "" then [] else [t]

/-- `if (attr) parts.push(pre + attr)` for a `getAttribute` result
(`null` and the empty string are both falsy). -/
def pushTruthy (pre : String) (o : Option String) : List String :=
  match o with
  | some v => if v = "" then [] else [pre ++ v]
  | none => []

/-- The parent part: `if (parentText && parentText !== selfText)
parts.push('parent: ' + parentText)` with
`parentText = parent.textContent.trim().slice(0, 60)`. -/
def pushParent (selfText : String) (o : Option String) : List String :=
  match o with
  | some t =>
      let parentText := sliceTo 60 (jsTrim t)
      if parentText ≠ "" ∧ parentText ≠ selfText then ["parent: " ++ parentText] else []
  | none => []

/-- `getClickContext(el)` of `content.js`: push truthy fields in source
order (self text, aria-label, placeholder, title, tag, parent text), then
`parts.filter(Boolean).join(' | ')`. -/
def getClickContext (el : DomElement) : String :=
  let selfText := selfTextOf el
  String.intercalate " | "
    ((pushNonempty selfText ++
      pushTruthy "aria-label: " el.ariaLabel ++
      pushTruthy "placeholder: " el.placeholder ++
      pushTruthy "title: " el.title ++
      [tagFieldOf el] ++
      pushParent selfText el.parentText).filter (fun s => s ≠ ""))

/-- A field that is omitted when empty (the spec's "empty fields are
omitted"). -/
def omitEmpty (t : String) : Option String :=
  if t = "" then none else some t

/-- An attribute-derived field: present exactly when the attribute is a
nonempty string. -/
def optField (pre : String) (o : Option String) : Option String :=
  match o with
  | some v => if v = "" then none else some (pre ++ v)
  | none => none

/-- The ancestor-text field of the spec: the parent's text truncated to
60 characters, included only when nonempty and distinct from the
element's own text. -/
def parentField (selfText : String) (o : Option String) : Option String :=
  match o with
  | some t =>
      if sliceTo 60 (jsTrim t) = "" ∨ sliceTo 60 (jsTrim t) = selfText then none
      else some ("parent: " ++ sliceTo 60 (jsTrim t))
  | none => none

/-- The six context fields in the order stated by the spec: visible text
(≤ 80 chars), accessible label, placeholder, title attribute, tag (with
`[type]` when a nonempty type attribute exists), ancestor text (≤ 60
chars) when distinct from the element's own text; `none` marks an empty,
omitted field. -/
def clickContextFields (el : DomElement) : List (Option String) :=
  [ omitEmpty (selfTextOf el),
    optField "aria-label: " el.ariaLabel,
    optField "placeholder: " el.placeholder,
    optField "title: " el.title,
    omitEmpty (tagFieldOf el),
    parentField (selfTextOf el) el.parentText ]

/-- Pipe-delimited concatenation, in order, of the non-omitted context
fields (the spec's description of the interaction-context string). -/
def clickContextSpec (el : DomElement) : String :=
  String.intercalate " | " ((clickContextFields el).filterMap id)

/-! ### Content script: teach-mode recording state -/

/-- The content-script recording state: `teachModeActive` and the
module-level `stepIndex` counter. -/
structure TeachContentState where
  teachModeActive : Bool
  stepIndex : Nat
deriving DecidableEq, Repr

/-- Events observed by the content script while recording:
a page click, the `TEACH_MODE_ON` / `TEACH_MODE_OFF` runtime messages,
a `chrome.storage.onChanged` notification for `teachState`, and a page
navigation (which reloads the content script; `persistedTeach` is whether
a persisted `teachState` is recovered from session storage). -/
inductive TeachEvent where
  | pageClick (el : DomElement)
  | teachModeOn
  | teachModeOff
  | storageActivated
  | storageCleared
  | pageLoad (persistedTeach : Bool)
deriving DecidableEq, Repr

/-- Message sent to the background script for a captured interaction
(`CONTENT_CLICK` with its `clickContext` and `stepIndex` fields). -/
inductive TeachOut where
  | contentClick (clickContext : String) (stepIndex : Nat)
deriving DecidableEq, Repr

/-- One content-script transition: the click listener (capture → send
`CONTENT_CLICK` with the current index → `stepIndex++`), the
`TEACH_MODE_ON` handler (`teachModeActive = true; stepIndex = 0`), the
`TEACH_MODE_OFF` handler, the `storage.onChanged` handler (activation
also resets `stepIndex` to 0), and script re-initialization on page load
(fresh `stepIndex = 0`, teach mode recovered from session storage). -/
def teachStep (s : TeachContentState) (e : TeachEvent) :
    TeachContentState × List TeachOut :=
  match e with
  | TeachEvent.pageClick el =>
      match s.teachModeActive with
      | true =>
          ({ s with stepIndex := s.stepIndex + 1 },
           [TeachOut.contentClick (getClickContext el) s.stepIndex])
      | false => (s, [])
  | TeachEvent.teachModeOn => ({ teachModeActive := true, stepIndex := 0 }, [])
  | TeachEvent.teachModeOff => ({ s with teachModeActive := false }, [])
  | TeachEvent.storageActivated => ({ teachModeActive := true, stepIndex := 0 }, [])
  | TeachEvent.storageCleared => ({ s with teachModeActive := false }, [])
  | TeachEvent.pageLoad persisted => ({ teachModeActive := persisted, stepIndex := 0 }, [])

/-- Run the content-script recording machine over an event list. -/
def teachRun (s : TeachContentState) : List TeachEvent → TeachContentState × List TeachOut
  | [] => (s, [])
  | e :: rest =>
      let step := teachStep s e
      let tail := teachRun step.1 rest
      (tail.1, step.2 ++ tail.2)

/-- Events that re-activate teach mode (each resets `stepIndex` to 0),
plus page loads (which reinitialize the whole script state). -/
def isTeachResetEvent : TeachEvent → Bool
  | TeachEvent.teachModeOn => true
  | TeachEvent.storageActivated => true
  | TeachEvent.pageLoad _ => true
  | _ => false

/-- A concrete environment-input sequence holding two full recovery
round-trips at step index 1: poll tick, resolution, renewed
`recovery_needed` result, poll tick, resolution (with failing forward). -/
def recoveryRoundTripInputs : List EnvInput :=
  [EnvInput.iter true none,
   EnvInput.recover "exec-1" 1 "the blue one" true true,
   EnvInput.iter true
     (some { recovery_needed := true, recovery_question := some "Which button?" }),
   EnvInput.iter true none,
   EnvInput.recover "exec-1" 1 "the left one" true false]

/-- A concrete clicked element used in closed statements. -/
def sampleElement : DomElement :=
  { textContent := "OK", innerText := "", ariaLabel := none, placeholder := none,
    title := none, tagName := "BUTTON", typeAttr := none, parentText := none }

/-! ## Helper lemmas -/

/-- A string with a nonempty left part is nonempty. -/
theorem append_ne_empty_left (p v : String) (hp : p ≠ "") : (p ++ v) ≠ "" := by
  intro h
  apply hp
  have hd : p.data ++ v.data = [] := by
    have h2 := congrArg String.data h
    simpa using h2
  have hp0 : p.data = [] := (List.append_eq_nil.mp hd).1
  cases p
  simp_all

/-- Filtering the truthy-push of a plain text equals the omitted-field
option. -/
theorem filter_pushNonempty (t : String) :
    (pushNonempty t).filter (fun s => s ≠ "") = (omitEmpty t).toList := by
  by_cases h : t = "" <;> simp [pushNonempty, omitEmpty, h]

/-- Filtering the truthy-push of a prefixed attribute equals the
attribute field option. -/
theorem filter_pushTruthy (pre : String) (hpre : pre ≠ "") (o : Option String) :
    (pushTruthy pre o).filter (fun s => s ≠ "") = (optField pre o).toList := by
  cases o with
  | none => simp [pushTruthy, optField]
  | some v =>
      by_cases h : v = "" <;>
        simp [pushTruthy, optField, h, append_ne_empty_left pre v hpre]

/-- Filtering the unconditionally pushed tag equals the omitted-field
option. -/
theorem filter_single_tag (t : String) :
    ([t] : List String).filter (fun s => s ≠ "") = (omitEmpty t).toList := by
  by_cases h : t = "" <;> simp [omitEmpty, h]

/-- Filtering the parent push equals the ancestor field option. -/
theorem filter_pushParent (selfText : String) (o : Option String) :
    (pushParent selfText o).filter (fun s => s ≠ "") =
      (parentField selfText o).toList := by
  cases o with
  | none => simp [pushParent, parentField]
  | some t =>
      by_cases h1 : sliceTo 60 (jsTrim t) = "" <;>
        by_cases h2 : sliceTo 60 (jsTrim t) = selfText <;>
          simp [pushParent, parentField, h1, h2,
            append_ne_empty_left "parent: " _ (by decide)]

/-- `filterMap id` over six optional fields is the concatenation of their
`toList`s. -/
theorem filterMap_id_six (a b c d e f : Option String) :
    List.filterMap id [a, b, c, d, e, f] =
      a.toList ++ b.toList ++ c.toList ++ d.toList ++ e.toList ++ f.toList := by
  cases a <;> cases b <;> cases c <;> cases d <;> cases e <;> cases f <;> rfl

/-- A cleared (`none`) `executeState` stays cleared under any input. -/
theorem execStep_none_fst (inp : EnvInput) : (execStep none inp).1 = none := by
  cases inp with
  | recover eid i res capOk recOk => cases recOk <;> simp [execStep, handleRecovery]
  | iter capOk api => simp [execStep]

/-- Exhaustive description of a transition that leaves the session alive:
either every counter field is unchanged, or the input was a successful
non-recovery iteration that advanced `stepIndex` by one below
`totalSteps`. -/
theorem execStep_some_cases (st : ExecState) (inp : EnvInput) (st' : ExecState)
    (h : (execStep (some st) inp).1 = some st') :
    (st'.stepIndex = st.stepIndex ∧ st'.totalSteps = st.totalSteps) ∨
    (∃ r : StepResponse, inp = EnvInput.iter true (some r) ∧
       r.recovery_needed = false ∧ st.running = true ∧
       st.awaitingRecovery = false ∧ st.stepIndex < st.totalSteps ∧
       st' = { st with stepIndex := st.stepIndex + 1 }) := by
  cases inp with
  | recover eid i res capOk recOk =>
      left
      have hst : st' = { st with awaitingRecovery := false } := by
        cases recOk <;> simpa [execStep, handleRecovery, eq_comm] using h
      subst hst; exact ⟨rfl, rfl⟩
  | iter capOk api =>
      cases hr : st.running with
      | false =>
          left
          have hst : st' = st := by simpa [execStep, hr, eq_comm] using h
          subst hst; exact ⟨rfl, rfl⟩
      | true =>
        cases ha : st.awaitingRecovery with
        | true =>
            left
            have hst : st' = st := by simpa [execStep, hr, ha, eq_comm] using h
            subst hst; exact ⟨rfl, rfl⟩
        | false =>
          by_cases hc : st.totalSteps ≤ st.stepIndex
          · simp [execStep, hr, ha, hc] at h
          · cases capOk with
            | false =>
                left
                have hst : st' = st := by
                  simpa [execStep, hr, ha, hc, runStepBody, eq_comm] using h
                subst hst; exact ⟨rfl, rfl⟩
            | true =>
              cases api with
              | none =>
                  left
                  have hst : st' = st := by
                    simpa [execStep, hr, ha, hc, runStepBody, eq_comm] using h
                  subst hst; exact ⟨rfl, rfl⟩
              | some r =>
                cases hrec : r.recovery_needed with
                | true =>
                    left
                    have hst : st' = { st with awaitingRecovery := true } := by
                      simpa [execStep, hr, ha, hc, runStepBody, hrec, eq_comm] using h
                    subst hst; exact ⟨rfl, rfl⟩
                | false =>
                    right
                    refine ⟨r, rfl, hrec, rfl, rfl, not_le.mp hc, ?_⟩
                    have hst : st' = { st with stepIndex := st.stepIndex + 1 } := by
                      simpa [execStep, hr, ha, hc, runStepBody, hrec, eq_comm] using h
                    rw [hst]
                    simp [hr, ha]

/-- A live-to-live transition never decreases `stepIndex`. -/
theorem execStep_stepIndex_mono (st : ExecState) (inp : EnvInput) (st' : ExecState)
    (h : (execStep (some st) inp).1 = some st') :
    st.stepIndex ≤ st'.stepIndex := by
  rcases execStep_some_cases st inp st' h with ⟨he, _⟩ | ⟨r, _, _, _, _, _, hst⟩
  · omega
  · subst hst; simp

/-- One transition preserves the `stepIndex ≤ totalSteps` bound. -/
theorem execStep_preserves_bound (s : Option ExecState) (inp : EnvInput)
    (hinv : ∀ st, s = some st → st.stepIndex ≤ st.totalSteps) :
    ∀ st', (execStep s inp).1 = some st' → st'.stepIndex ≤ st'.totalSteps := by
  intro st' h
  cases s with
  | none => rw [execStep_none_fst] at h; exact absurd h (by simp)
  | some st =>
      rcases execStep_some_cases st inp st' h with ⟨he, ht⟩ | ⟨r, _, _, _, _, hlt, hst⟩
      · have := hinv st rfl; omega
      · subst hst; simpa using hlt

/-- The bound `stepIndex ≤ totalSteps` holds at the end of any run whose
initial state satisfies it. -/
theorem execRun_preserves_bound (l : List EnvInput) :
    ∀ s : Option ExecState, (∀ st, s = some st → st.stepIndex ≤ st.totalSteps) →
      ∀ st', execRunState s l = some st' → st'.stepIndex ≤ st'.totalSteps := by
  induction l with
  | nil => intro s hinv st' h; exact hinv st' h
  | cons inp rest ih =>
      intro s hinv st' h
      exact ih (execStep s inp).1 (fun st hst => execStep_preserves_bound s inp hinv st hst)
        st' h

/-- A single recovery-phase transition dispatches no action and keeps
`stepIndex` unchanged. -/
theorem execStep_recovery_phase (s : Option ExecState) (inp : EnvInput)
    (hp : isRecoveryPhaseInput inp = true) :
    (∀ e ∈ (execStep s inp).2, isDispatchEvent e = false) ∧
    (∀ st st', s = some st → (execStep s inp).1 = some st' →
       st'.stepIndex = st.stepIndex) := by
  cases inp with
  | recover eid i res capOk recOk =>
      constructor
      · intro e he
        have hor : e = ExecEvent.recoverApiCall eid i res ∨ e = ExecEvent.recoverApiFailed := by
          cases s <;> cases recOk <;> simp [execStep, handleRecovery] at he <;> tauto
        rcases hor with rfl | rfl <;> rfl
      · intro st st' hs h
        subst hs
        have hst : st' = { st with awaitingRecovery := false } := by
          cases recOk <;> simpa [execStep, handleRecovery, eq_comm] using h
        simp [hst]
  | iter capOk api =>
      constructor
      · intro e he
        cases s with
        | none => simp [execStep] at he
        | some st =>
          cases hr : st.running with
          | false => simp [execStep, hr] at he
          | true =>
            cases ha : st.awaitingRecovery with
            | true =>
                simp [execStep, hr, ha] at he
                simp [he, isDispatchEvent]
            | false =>
              by_cases hc : st.totalSteps ≤ st.stepIndex
              · simp [execStep, hr, ha, hc] at he
                rcases he with he | he <;> simp [he, isDispatchEvent]
              · cases capOk with
                | false =>
                    simp [execStep, hr, ha, hc, runStepBody] at he
                    rcases he with he | he | he <;> simp [he, isDispatchEvent]
                | true =>
                  cases api with
                  | none =>
                      simp [execStep, hr, ha, hc, runStepBody] at he
                      rcases he with he | he | he | he <;> simp [he, isDispatchEvent]
                  | some r =>
                      have hrec : r.recovery_needed = true := by
                        simpa [isRecoveryPhaseInput] using hp
                      simp [execStep, hr, ha, hc, runStepBody, hrec] at he
                      rcases he with he | he | he | he <;> simp [he, isDispatchEvent]
      · intro st st' hs h
        subst hs
        rcases execStep_some_cases st (EnvInput.iter capOk api) st' h with
          ⟨he, _⟩ | ⟨r, hinp, hrec, _, _, _, _⟩
        · exact he
        · cases hinp
          simp [isRecoveryPhaseInput, hrec] at hp

/-- A run from a cleared session stays cleared and dispatches nothing. -/
theorem execRun_from_none (l : List EnvInput) :
    (execRun none l).1 = none ∧
    (∀ e ∈ (execRun none l).2, isDispatchEvent e = false) := by
  induction l with
  | nil => simp [execRun]
  | cons inp rest ih =>
      have h1 : (execStep none inp).1 = none := execStep_none_fst inp
      constructor
      · simp [execRun, h1, ih.1]
      · intro e he
        simp [execRun, h1] at he
        rcases he with he | he
        · cases inp with
          | recover eid i res capOk recOk =>
              have hor : e = ExecEvent.recoverApiCall eid i res ∨
                  e = ExecEvent.recoverApiFailed := by
                cases recOk <;> simp [execStep, handleRecovery] at he <;> tauto
              rcases hor with rfl | rfl <;> rfl
          | iter capOk api => simp [execStep] at he
        · exact ih.2 e he

/-- A whole run of recovery-phase inputs dispatches nothing and keeps
`stepIndex` unchanged. -/
theorem execRun_recovery_phase (l : List EnvInput)
    (hl : ∀ inp ∈ l, isRecoveryPhaseInput inp = true) :
    ∀ s : Option ExecState,
      (∀ e ∈ (execRun s l).2, isDispatchEvent e = false) ∧
      (∀ st st', s = some st → (execRun s l).1 = some st' →
         st'.stepIndex = st.stepIndex) := by
  induction l with
  | nil =>
      intro s
      refine ⟨by simp [execRun], ?_⟩
      intro st st' hs h
      rw [hs] at h
      simp [execRun] at h
      simp [h]
  | cons inp rest ih =>
      intro s
      have hp : isRecoveryPhaseInput inp = true := hl inp (by simp)
      have hrest : ∀ i ∈ rest, isRecoveryPhaseInput i = true := by
        intro i hi; exact hl i (by simp [hi])
      have hstep := execStep_recovery_phase s inp hp
      have htail := ih hrest (execStep s inp).1
      constructor
      · intro e he
        simp [execRun] at he
        rcases he with he | he
        · exact hstep.1 e he
        · exact htail.1 e he
      · intro st st' hs h
        subst hs
        have hfin : (execRun (execStep (some st) inp).1 rest).1 = some st' := by
          simpa [execRun] using h
        cases hmid : (execStep (some st) inp).1 with
        | none =>
            rw [hmid] at hfin
            rw [(execRun_from_none rest).1] at hfin
            exact absurd hfin (by simp)
        | some stMid =>
            rw [hmid] at hfin
            have h1 := hstep.2 st stMid rfl hmid
            have h2 := htail.2 stMid st' (by rw [hmid]) (by rw [hmid]; exact hfin)
            omega

/-! ## Claims -/

/-- Claim C1: for every ExecutionSession driven by the execute loop,
`step_index` starts at 0, is non-decreasing, strictly increases only when
a non-recovery step completes (in the same transition that emits the
1200 ms settle sleep and the step-done event), never exceeds
`total_steps`, and on `step_index = total_steps` the loop performs
completion instead of another iteration. -/
theorem execLoop_stepIndex_invariants :
    (∀ eid wid n, (initExecState eid wid n).stepIndex = 0) ∧
    (∀ st inp st', (execStep (some st) inp).1 = some st' →
       st.stepIndex ≤ st'.stepIndex) ∧
    (∀ st inp st', (execStep (some st) inp).1 = some st' →
       st.stepIndex < st'.stepIndex →
       ∃ r : StepResponse, inp = EnvInput.iter true (some r) ∧
         r.recovery_needed = false ∧
         st' = { st with stepIndex := st.stepIndex + 1 } ∧
         ExecEvent.sleepMs 1200 ∈ (execStep (some st) inp).2 ∧
         ExecEvent.stepDone st.stepIndex ∈ (execStep (some st) inp).2) ∧
    (∀ eid wid n l st',
       execRunState (some (initExecState eid wid n)) l = some st' →
       st'.stepIndex ≤ st'.totalSteps) ∧
    (∀ st capOk api, st.running = true → st.awaitingRecovery = false →
       st.stepIndex = st.totalSteps →
       execStep (some st) (EnvInput.iter capOk api) =
         (none, [ExecEvent.completeApiCall st.executionId, ExecEvent.completed])) := by
  refine ⟨fun eid wid n => rfl, ?_, ?_, ?_, ?_⟩
  · exact fun st inp st' h => execStep_stepIndex_mono st inp st' h
  · intro st inp st' h hlt
    rcases execStep_some_cases st inp st' h with ⟨he, _⟩ | ⟨r, hinp, hrec, hr, ha, hc, hst⟩
    · omega
    · subst hinp
      refine ⟨r, rfl, hrec, hst, ?_, ?_⟩
      · simp [execStep, hr, ha, not_le.mpr hc, runStepBody, hrec]
      · simp [execStep, hr, ha, not_le.mpr hc, runStepBody, hrec]
  · intro eid wid n l st' h
    exact execRun_preserves_bound l (some (initExecState eid wid n))
      (by intro st hst; cases hst; simp [initExecState]) st' h
  · intro st capOk api hr ha heq
    simp [execStep, hr, ha, le_of_eq heq.symm]

/-- Witness for C1: the completion branch at a concrete session whose
`step_index` equals `total_steps`. -/
theorem execLoop_stepIndex_invariants_witness :
    execStep (some ⟨"exec-1", "wf-1", 2, 2, true, false⟩) (EnvInput.iter true none) =
      (none, [ExecEvent.completeApiCall "exec-1", ExecEvent.completed]) :=
  execLoop_stepIndex_invariants.2.2.2.2 ⟨"exec-1", "wf-1", 2, 2, true, false⟩
    true none rfl rfl rfl

/-- Claim C2: while `awaiting_recovery` is true no ActionCommand is
dispatched and `step_index` does not change, across arbitrarily many
recovery round-trips at the same index (any sequence of poll ticks,
retries, resolution submissions and renewed `recovery_needed` results). -/
theorem awaiting_recovery_no_dispatch (st : ExecState) (l : List EnvInput)
    (hawait : st.awaitingRecovery = true)
    (hl : ∀ inp ∈ l, isRecoveryPhaseInput inp = true) :
    (∀ e ∈ (execRun (some st) l).2, isDispatchEvent e = false) ∧
    (∀ st', (execRun (some st) l).1 = some st' →
       st'.stepIndex = st.stepIndex) := by
  have h := execRun_recovery_phase l hl (some st)
  exact ⟨h.1, fun st' hfin => h.2 st st' rfl hfin⟩

/-- Witness for C2: two full recovery round-trips at index 1 (question,
poll, resolution, renewed question, poll, resolution) dispatch nothing
and leave `step_index` at 1. -/
theorem awaiting_recovery_no_dispatch_witness :
    (∀ e ∈ (execRun (some ⟨"exec-1", "wf-1", 5, 1, true, true⟩)
        recoveryRoundTripInputs).2, isDispatchEvent e = false) ∧
    (∀ st', (execRun (some ⟨"exec-1", "wf-1", 5, 1, true, true⟩)
        recoveryRoundTripInputs).1 = some st' → st'.stepIndex = 1) :=
  awaiting_recovery_no_dispatch ⟨"exec-1", "wf-1", 5, 1, true, true⟩
    recoveryRoundTripInputs rfl (by decide)

/-- Claim C3: a submitted resolution clears `awaiting_recovery` without
touching `step_index`, and the next loop pass calls `/execute/step` with
the same index `i`, not `i + 1` (the step is re-evaluated). -/
theorem resolution_reruns_same_index (st : ExecState) (eid : String) (j : Nat)
    (res : String) (capOk recOk : Bool)
    (hawait : st.awaitingRecovery = true) :
    (execStep (some st) (EnvInput.recover eid j res capOk recOk)).1 =
      some { st with awaitingRecovery := false } ∧
    (∀ api, st.running = true → st.stepIndex < st.totalSteps →
       ExecEvent.stepApiCall st.executionId st.stepIndex ∈
         (execStep (some { st with awaitingRecovery := false })
           (EnvInput.iter true api)).2) := by
  constructor
  · cases recOk <;> simp [execStep, handleRecovery]
  · intro api hr hc
    have hc2 : ¬ st.totalSteps ≤ st.stepIndex := not_le.mpr hc
    cases api with
    | none => simp [execStep, runStepBody, hr, hc2]
    | some r =>
        cases hrec : r.recovery_needed <;>
          simp [execStep, runStepBody, hr, hc2, hrec]

/-- Witness for C3: Scenario B — recovery at index 2, resolution
"the blue one"; the session resumes awaiting-free at index 2 and the next
`/execute/step` call is made with `step_index = 2`. -/
theorem resolution_reruns_same_index_witness :
    (execStep (some ⟨"exec-1", "wf-1", 5, 2, true, true⟩)
        (EnvInput.recover "exec-1" 2 "the blue one" true true)).1 =
      some ⟨"exec-1", "wf-1", 5, 2, true, false⟩ ∧
    ExecEvent.stepApiCall "exec-1" 2 ∈
      (execStep (some ⟨"exec-1", "wf-1", 5, 2, true, false⟩)
        (EnvInput.iter true none)).2 := by
  have h := resolution_reruns_same_index ⟨"exec-1", "wf-1", 5, 2, true, true⟩
    "exec-1" 2 "the blue one" true true rfl
  exact ⟨h.1, h.2 none rfl (by decide)⟩

/-- Counterexample to claim C4: a submission for the wrong step index
(2, while the session awaits recovery at index 3) is not ignored: the
code still issues the `/execute/recover` call with the submitted index
and clears `awaiting_recovery`; no StaleRecoveryError path exists. -/
theorem stale_resolution_applied_counterexample :
    (2 : Nat) ≠ 3 ∧
    (⟨"exec-1", "wf-1", 5, 3, true, true⟩ : ExecState).awaitingRecovery = true ∧
    execStep (some ⟨"exec-1", "wf-1", 5, 3, true, true⟩)
        (EnvInput.recover "exec-1" 2 "stale answer" true true) =
      (some ⟨"exec-1", "wf-1", 5, 3, true, false⟩,
       [ExecEvent.recoverApiCall "exec-1" 2 "stale answer"]) :=
  ⟨by decide, rfl, rfl⟩

/-- Claim C4 as amended: `handleRecovery` validates nothing — whenever an
ExecutionSession exists, any resolution submission (stale, duplicate, or
wrong index alike) issues a `/execute/recover` call with the submitted
index and clears `awaiting_recovery`; with no session only the call is
made. -/
theorem resolution_always_applied (s : Option ExecState) (eid : String)
    (j : Nat) (res : String) (capOk recOk : Bool) :
    ExecEvent.recoverApiCall eid j res ∈
      (execStep s (EnvInput.recover eid j res capOk recOk)).2 ∧
    (∀ st, s = some st →
       (execStep s (EnvInput.recover eid j res capOk recOk)).1 =
         some { st with awaitingRecovery := false }) ∧
    (s = none → (execStep s (EnvInput.recover eid j res capOk recOk)).1 = none) := by
  refine ⟨?_, ?_, ?_⟩
  · cases s <;> cases recOk <;> simp [execStep, handleRecovery]
  · intro st hs
    subst hs
    cases recOk <;> simp [execStep, handleRecovery]
  · intro hs
    subst hs
    cases recOk <;> rfl

/-- Witness for the amended C4: a duplicate submission against a session
that is no longer awaiting recovery is still applied. -/
theorem resolution_always_applied_witness :
    ExecEvent.recoverApiCall "exec-1" 2 "dup" ∈
      (execStep (some ⟨"exec-1", "wf-1", 5, 2, true, false⟩)
        (EnvInput.recover "exec-1" 2 "dup" true true)).2 ∧
    (execStep (some ⟨"exec-1", "wf-1", 5, 2, true, false⟩)
        (EnvInput.recover "exec-1" 2 "dup" true true)).1 =
      some ⟨"exec-1", "wf-1", 5, 2, true, false⟩ := by
  have h := resolution_always_applied (some ⟨"exec-1", "wf-1", 5, 2, true, false⟩)
    "exec-1" 2 "dup" true true
  exact ⟨h.1, h.2.1 ⟨"exec-1", "wf-1", 5, 2, true, false⟩ rfl⟩

/-- Claim C5: for an execute-step result whose ActionCommand kind is none
of click/type/navigate/scroll, the dispatcher logs and performs no page
action, and the loop still proceeds exactly as for a recognized action:
it dispatches the command, waits the 1200 ms settle delay, emits the
step-done event and increments `step_index`. -/
theorem unknown_action_kind_noop (st : ExecState) (r : StepResponse) (a : ActionCmd)
    (hrun : st.running = true) (hawait : st.awaitingRecovery = false)
    (hlt : st.stepIndex < st.totalSteps)
    (hrec : r.recovery_needed = false) (hact : r.action = some a)
    (hkind : a.type ≠ "click" ∧ a.type ≠ "type" ∧ a.type ≠ "navigate" ∧
      a.type ≠ "scroll") :
    executeAction a = ActionEffect.unknownLogged a.type ∧
    execStep (some st) (EnvInput.iter true (some r)) =
      (some { st with stepIndex := st.stepIndex + 1 },
       [ExecEvent.statusCapture st.stepIndex,
        ExecEvent.stepApiCall st.executionId st.stepIndex,
        ExecEvent.stepUpdate st.stepIndex false,
        ExecEvent.actionDispatched a,
        ExecEvent.sleepMs 1200,
        ExecEvent.stepDone st.stepIndex]) := by
  obtain ⟨h1, h2, h3, h4⟩ := hkind
  constructor
  · simp [executeAction, h1, h2, h3, h4]
  · simp [execStep, hrun, hawait, not_le.mpr hlt, runStepBody, hrec, hact]

/-- Witness for C5: Scenario C — an unsupported "drag" command is a no-op
for the dispatcher while the loop settles, reports the step done and
advances from index 0 to 1. -/
theorem unknown_action_kind_noop_witness :
    executeAction { type := "drag" } = ActionEffect.unknownLogged "drag" ∧
    execStep (some ⟨"exec-1", "wf-1", 5, 0, true, false⟩)
        (EnvInput.iter true (some { action := some { type := "drag" } })) =
      (some ⟨"exec-1", "wf-1", 5, 1, true, false⟩,
       [ExecEvent.statusCapture 0,
        ExecEvent.stepApiCall "exec-1" 0,
        ExecEvent.stepUpdate 0 false,
        ExecEvent.actionDispatched { type := "drag" },
        ExecEvent.sleepMs 1200,
        ExecEvent.stepDone 0]) :=
  unknown_action_kind_noop ⟨"exec-1", "wf-1", 5, 0, true, false⟩
    { action := some { type := "drag" } } { type := "drag" }
    rfl rfl (by decide) rfl rfl (by decide)

/-- Claim C6: a capture failure emits a transient status signal, waits
the fixed 2000 ms interval and retries the same iteration with the
session state (in particular `step_index`) unchanged; arbitrarily many
consecutive capture failures never abort the session, skip the step or
advance the index. -/
theorem capture_failure_retries_same_step (st : ExecState) (api : Option StepResponse)
    (hrun : st.running = true) (hawait : st.awaitingRecovery = false)
    (hlt : st.stepIndex < st.totalSteps) :
    execStep (some st) (EnvInput.iter false api) =
      (some st,
       [ExecEvent.statusCapture st.stepIndex, ExecEvent.captureFailed,
        ExecEvent.sleepMs 2000]) ∧
    (∀ n, execRunState (some st) (List.replicate n (EnvInput.iter false api)) =
       some st) := by
  have hone : execStep (some st) (EnvInput.iter false api) =
      (some st,
       [ExecEvent.statusCapture st.stepIndex, ExecEvent.captureFailed,
        ExecEvent.sleepMs 2000]) := by
    simp [execStep, hrun, hawait, not_le.mpr hlt, runStepBody]
  refine ⟨hone, ?_⟩
  intro n
  induction n with
  | zero => simp [execRunState, execRun]
  | succ m ih => simpa [execRunState, execRun, List.replicate_succ, hone] using ih

/-- Witness for C6: three consecutive capture failures at index 2 leave
the concrete session untouched. -/
theorem capture_failure_retries_same_step_witness :
    execStep (some ⟨"exec-1", "wf-1", 5, 2, true, false⟩)
        (EnvInput.iter false none) =
      (some ⟨"exec-1", "wf-1", 5, 2, true, false⟩,
       [ExecEvent.statusCapture 2, ExecEvent.captureFailed,
        ExecEvent.sleepMs 2000]) ∧
    execRunState (some ⟨"exec-1", "wf-1", 5, 2, true, false⟩)
        (List.replicate 3 (EnvInput.iter false none)) =
      some ⟨"exec-1", "wf-1", 5, 2, true, false⟩ := by
  have h := capture_failure_retries_same_step ⟨"exec-1", "wf-1", 5, 2, true, false⟩
    none rfl rfl (by decide)
  exact ⟨h.1, h.2 3⟩

/-- Counterexample to claim C7: the numeric value "0" is neither missing
nor non-numeric, yet `parseInt(value, 10) || 300` treats the parsed 0 as
falsy, so the dispatcher scrolls by 300 pixels instead of the literal
amount 0. -/
theorem scroll_zero_value_counterexample :
    jsParseInt "0" = some 0 ∧
    performScroll (some "down") (some "0") = ScrollEffect.vertical 300 ∧
    performScrollClaimed (some "down") (some "0") = ScrollEffect.vertical 0 ∧
    performScroll (some "down") (some "0") ≠
      performScrollClaimed (some "down") (some "0") := by
  refine ⟨by decide, by decide, by decide, by decide⟩

/-- Claim C7 as amended: the dispatcher scrolls by the pixel amount
`parseInt(value, 10)` in the given direction, and uses the default 300
whenever the value is missing, non-numeric, or parses to 0. -/
theorem scroll_amount_semantics (direction : Option String) (value : Option String) :
    (value.bind jsParseInt = none ∨ value.bind jsParseInt = some 0 →
       performScroll direction value =
         (if direction = some "down" then ScrollEffect.vertical 300
          else if direction = some "up" then ScrollEffect.vertical (-300)
          else if direction = some "right" then ScrollEffect.horizontal 300
          else if direction = some "left" then ScrollEffect.horizontal (-300)
          else ScrollEffect.vertical 300)) ∧
    (∀ n : Int, value.bind jsParseInt = some n → n ≠ 0 →
       performScroll direction value =
         (if direction = some "down" then ScrollEffect.vertical n
          else if direction = some "up" then ScrollEffect.vertical (-n)
          else if direction = some "right" then ScrollEffect.horizontal n
          else if direction = some "left" then ScrollEffect.horizontal (-n)
          else ScrollEffect.vertical n)) := by
  constructor
  · intro h
    rcases h with h | h <;> simp [performScroll, h]
  · intro n h hn
    simp [performScroll, h, hn]

/-- Witness for the amended C7: value "0" defaults to a 300-pixel
downward scroll, and value "42" scrolls up by the literal 42 pixels. -/
theorem scroll_amount_semantics_witness :
    performScroll (some "down") (some "0") = ScrollEffect.vertical 300 ∧
    performScroll (some "up") (some "42") = ScrollEffect.vertical (-42) := by
  constructor
  · have h := (scroll_amount_semantics (some "down") (some "0")).1
      (Or.inr (by decide))
    simpa using h
  · have h := (scroll_amount_semantics (some "up") (some "42")).2 42
      (by decide) (by decide)
    simpa using h

/-- Claim C10: the resolution forward to `/execute/recover` failing (the
error is only logged) still clears `awaiting_recovery` whenever a session
exists, so the session is never left blocked in the recovering state: the
next loop pass re-runs the same step. -/
theorem recover_failure_never_blocks (st : ExecState) (eid : String) (j : Nat)
    (res : String) (capOk : Bool) :
    (execStep (some st) (EnvInput.recover eid j res capOk false)).1 =
      some { st with awaitingRecovery := false } ∧
    ExecEvent.recoverApiCall eid j res ∈
      (execStep (some st) (EnvInput.recover eid j res capOk false)).2 ∧
    ExecEvent.recoverApiFailed ∈
      (execStep (some st) (EnvInput.recover eid j res capOk false)).2 ∧
    (st.running = true → st.stepIndex < st.totalSteps →
       ExecEvent.stepApiCall st.executionId st.stepIndex ∈
         (execStep (some { st with awaitingRecovery := false })
           (EnvInput.iter true none)).2) := by
  refine ⟨by simp [execStep, handleRecovery], by simp [execStep, handleRecovery],
    by simp [execStep, handleRecovery], ?_⟩
  intro hr hc
  simp [execStep, runStepBody, hr, not_le.mpr hc]

/-- Witness for C10: a failed forward at index 2 still unblocks the
concrete session and the loop re-runs step 2. -/
theorem recover_failure_never_blocks_witness :
    (execStep (some ⟨"exec-1", "wf-1", 5, 2, true, true⟩)
        (EnvInput.recover "exec-1" 2 "the blue one" true false)).1 =
      some ⟨"exec-1", "wf-1", 5, 2, true, false⟩ ∧
    ExecEvent.stepApiCall "exec-1" 2 ∈
      (execStep (some ⟨"exec-1", "wf-1", 5, 2, true, false⟩)
        (EnvInput.iter true none)).2 := by
  have h := recover_failure_never_blocks ⟨"exec-1", "wf-1", 5, 2, true, true⟩
    "exec-1" 2 "the blue one" true
  exact ⟨h.1, h.2.2.2 rfl (by decide)⟩

/-- Claim C8: the interaction-context string is the pipe-delimited
concatenation, in order, of the element's visible text (truncated to 80
characters), its accessible label, its placeholder, its title attribute,
its tag (with `[type]` when a type attribute exists), and its parent's
text (truncated to 60 characters) when distinct from the element's own
text, with every empty field omitted. -/
theorem clickContext_matches_spec (el : DomElement) :
    getClickContext el = clickContextSpec el := by
  simp only [getClickContext, clickContextSpec, clickContextFields, filterMap_id_six]
  congr 1
  rw [List.filter_append, List.filter_append, List.filter_append, List.filter_append,
    List.filter_append]
  rw [filter_pushNonempty, filter_pushTruthy _ (by decide), filter_pushTruthy _ (by decide),
    filter_pushTruthy _ (by decide), filter_single_tag, filter_pushParent]

/-- Counterexample to claim C9: a repeated `TEACH_MODE_ON` activation
message received while recording is active resets the content-script step
counter to 0, so the next captured interaction carries step index 0 again
(a strict decrease from the previously attached index 1). -/
theorem teach_counter_reset_counterexample :
    (teachStep ⟨true, 2⟩ TeachEvent.teachModeOn).1 =
      ({ teachModeActive := true, stepIndex := 0 } : TeachContentState) ∧
    (teachRun ⟨true, 0⟩
        [TeachEvent.pageClick sampleElement, TeachEvent.pageClick sampleElement,
         TeachEvent.teachModeOn, TeachEvent.pageClick sampleElement]).2 =
      [TeachOut.contentClick "OK | button" 0,
       TeachOut.contentClick "OK | button" 1,
       TeachOut.contentClick "OK | button" 0] ∧
    (0 : Nat) < 1 :=
  ⟨rfl, by decide, by decide⟩

/-- Claim C9 as amended: the step counter is a natural number that
increases by exactly one per interaction captured while recording is
active, and never decreases across events that are not teach-mode
(re-)activations; however every `TEACH_MODE_ON` message, storage-driven
activation, or page navigation resets it to 0, even while a session is
active. -/
theorem teach_counter_behaviour :
    (∀ s el, s.teachModeActive = true →
       teachStep s (TeachEvent.pageClick el) =
         ({ s with stepIndex := s.stepIndex + 1 },
          [TeachOut.contentClick (getClickContext el) s.stepIndex])) ∧
    (∀ s, (teachStep s TeachEvent.teachModeOn).1 =
       ({ teachModeActive := true, stepIndex := 0 } : TeachContentState) ∧
       (teachStep s TeachEvent.storageActivated).1 =
         ({ teachModeActive := true, stepIndex := 0 } : TeachContentState) ∧
       (∀ p, (teachStep s (TeachEvent.pageLoad p)).1.stepIndex = 0)) ∧
    (∀ s l, (∀ e ∈ l, isTeachResetEvent e = false) →
       s.stepIndex ≤ (teachRun s l).1.stepIndex) := by
  refine ⟨?_, ?_, ?_⟩
  · intro s el h
    simp [teachStep, h]
  · intro s
    exact ⟨rfl, rfl, fun p => rfl⟩
  · intro s l
    induction l generalizing s with
    | nil => intro _; simp [teachRun]
    | cons e rest ih =>
        intro hl
        have he : isTeachResetEvent e = false := hl e (by simp)
        have hrest : ∀ x ∈ rest, isTeachResetEvent x = false := by
          intro x hx; exact hl x (by simp [hx])
        have hstep : s.stepIndex ≤ (teachStep s e).1.stepIndex := by
          cases e with
          | pageClick el => cases h : s.teachModeActive <;> simp [teachStep, h]
          | teachModeOn => simp [isTeachResetEvent] at he
          | teachModeOff => simp [teachStep]
          | storageActivated => simp [isTeachResetEvent] at he
          | storageCleared => simp [teachStep]
          | pageLoad p => simp [isTeachResetEvent] at he
        calc s.stepIndex ≤ (teachStep s e).1.stepIndex := hstep
          _ ≤ (teachRun (teachStep s e).1 rest).1.stepIndex := ih (teachStep s e).1 hrest
          _ = (teachRun s (e :: rest)).1.stepIndex := by simp [teachRun]

/-- Witness for the amended C9: a click while active advances the counter
from 3 to 4, and a click followed by `TEACH_MODE_OFF` never lowers it. -/
theorem teach_counter_behaviour_witness :
    teachStep ⟨true, 3⟩ (TeachEvent.pageClick sampleElement) =
      (⟨true, 4⟩, [TeachOut.contentClick (getClickContext sampleElement) 3]) ∧
    (3 : Nat) ≤ (teachRun ⟨true, 3⟩
        [TeachEvent.pageClick sampleElement, TeachEvent.teachModeOff]).1.stepIndex := by
  have h := teach_counter_behaviour
  exact ⟨h.1 ⟨true, 3⟩ sampleElement rfl,
    h.2.2 ⟨true, 3⟩ [TeachEvent.pageClick sampleElement, TeachEvent.teachModeOff]
      (by decide)⟩

end Users
